import Mathlib

/-!
Verification development for the loop-detection transformation
(src/dace/transformation/interstate/loop_detection.py).

The Python module uses three collaborators that the repository spec treats
as external leaves: the sympy expression engine, the networkx immediate
dominator computation, and the traversal utility dfs_conditional.
They are embedded here as small executable Lean functions, faithful to the
behaviour the source relies on (structural relational negation, wildcard
matching of comparison templates, linear-expression simplification,
immediate dominators over the reachable subgraph, conditional DFS).
Node identities are natural numbers; assignment maps are association
lists, whose listing order models Python dict insertion order.
-/

namespace LoopDetect

/-- Symbolic arithmetic expression: the fragment of sympy expressions the
loop detector manipulates (symbols, integer constants, sums, differences). -/
inductive Ex where
  | sym : String → Ex
  | const : Int → Ex
  | add : Ex → Ex → Ex
  | sub : Ex → Ex → Ex
deriving DecidableEq, Repr

/-- Free symbols of an expression, as sympy's free_symbols (membership is
what the source queries). -/
def freeSyms : Ex → List String
  | .sym s => [s]
  | .const _ => []
  | .add a b => freeSyms a ++ freeSyms b
  | .sub a b => freeSyms a ++ freeSyms b

/-- Add coefficient k for symbol s into an association list of linear
coefficients. -/
def addCoeff (s : String) (k : Int) : List (String × Int) → List (String × Int)
  | [] => [(s, k)]
  | (t, m) :: rest => if t = s then (t, m + k) :: rest else (t, m) :: addCoeff s k rest

/-- Merge coefficient lists: a + sgn * b. -/
def linMerge (a b : List (String × Int)) (sgn : Int) : List (String × Int) :=
  b.foldl (fun acc p => addCoeff p.1 (sgn * p.2) acc) a

/-- Linear normal form of an expression: symbol coefficients plus constant.
Every Ex is linear since the grammar only has +, −. -/
def linOf : Ex → List (String × Int) × Int
  | .sym s => ([(s, 1)], 0)
  | .const c => ([], c)
  | .add a b =>
    let la := linOf a
    let lb := linOf b
    (linMerge la.1 lb.1 1, la.2 + lb.2)
  | .sub a b =>
    let la := linOf a
    let lb := linOf b
    (linMerge la.1 lb.1 (-1), la.2 - lb.2)

/-- n copies of symbol s added together (coefficients beyond ±1 do not occur
in the loop detector's inputs but keep the builder total). -/
def scaleTerm (s : String) : Nat → Ex
  | 0 => .const 0
  | 1 => .sym s
  | n + 2 => .add (scaleTerm s (n + 1)) (.sym s)

/-- Rebuild an expression from a linear normal form, dropping zero
coefficients and folding constants, as sympy's automatic simplification
does for the linear arithmetic the detector performs. -/
def exOfLin (cs : List (String × Int)) (c : Int) : Ex :=
  match cs.filter (fun p => p.2 ≠ 0) with
  | [] => .const c
  | p :: rest =>
    let first := if p.2 > 0 then scaleTerm p.1 p.2.toNat
                 else .sub (.const 0) (scaleTerm p.1 (-p.2).toNat)
    let base := rest.foldl (fun acc q =>
        if q.2 > 0 then .add acc (scaleTerm q.1 q.2.toNat)
        else .sub acc (scaleTerm q.1 (-q.2).toNat)) first
    if c = 0 then base
    else if c > 0 then .add base (.const c)
    else .sub base (.const (-c))

/-- Simplifying subtraction, e.g. (i+1) − i reduces to 1, 10 − 1 to 9:
models sympy's automatic evaluation of Sub on linear expressions. -/
def simpSub (a b : Ex) : Ex :=
  let la := linOf a
  let lb := linOf b
  exOfLin (linMerge la.1 lb.1 (-1)) (la.2 - lb.2)

/-- Simplifying addition (used for the end = a + 1 template result). -/
def simpAdd (a b : Ex) : Ex :=
  let la := linOf a
  let lb := linOf b
  exOfLin (linMerge la.1 lb.1 1) (la.2 + lb.2)

/-- Boolean condition on an interstate edge: the comparison fragment of
sympy relationals plus logical negation, as used by the loop detector. -/
inductive Cond where
  | tru
  | fls
  | lt : Ex → Ex → Cond
  | le : Ex → Ex → Cond
  | gt : Ex → Ex → Cond
  | ge : Ex → Ex → Cond
  | notc : Cond → Cond
deriving DecidableEq, Repr

/-- Logical negation of a normalized condition, as sympy's Not evaluates
on relationals (Not(a<b) gives a>=b, and so on); double negation cancels. -/
def spNot : Cond → Cond
  | .tru => .fls
  | .fls => .tru
  | .lt a b => .ge a b
  | .le a b => .gt a b
  | .gt a b => .le a b
  | .ge a b => .lt a b
  | .notc c => c

/-- Normalization performed by condition_sympy: parsing a condition into
sympy pushes negations into the relational operators. -/
def normCond : Cond → Cond
  | .notc c => spNot (normCond c)
  | c => c

/-- Wildcard match against the template itervar < a: structural match of a
relational whose left side is exactly the iteration symbol, returning the
expression bound to the wildcard. -/
def matchLt (v : String) : Cond → Option Ex
  | .lt (.sym w) rhs => if w = v then some rhs else none
  | _ => none

/-- Wildcard match against itervar <= a. -/
def matchLe (v : String) : Cond → Option Ex
  | .le (.sym w) rhs => if w = v then some rhs else none
  | _ => none

/-- Wildcard match against itervar > a. -/
def matchGt (v : String) : Cond → Option Ex
  | .gt (.sym w) rhs => if w = v then some rhs else none
  | _ => none

/-- Wildcard match against itervar >= a. -/
def matchGe (v : String) : Cond → Option Ex
  | .ge (.sym w) rhs => if w = v then some rhs else none
  | _ => none

/-- Inclusive loop end from the continue condition: the four templates of
find_for_loop tried in the source's fixed order, the first match winning;
none when no template matches. -/
def computeEnd (v : String) (c : Cond) : Option Ex :=
  match matchLt v c with
  | some a => some (simpSub a (.const 1))
  | none =>
    match matchLe v c with
    | some a => some a
    | none =>
      match matchGt v c with
      | some a => some (simpAdd a (.const 1))
      | none =>
        match matchGe v c with
        | some a => some a
        | none => none

/-- Data carried by an interstate edge: assignment map (association list in
insertion order, keys unique) and condition, defaulting to true. -/
structure InterstateEdge where
  assignments : List (String × Ex) := []
  condition : Cond := .tru
deriving DecidableEq, Repr

/-- Directed edge of the state machine. -/
structure Edge where
  src : Nat
  dst : Nat
  data : InterstateEdge
deriving DecidableEq, Repr

/-- The SDFG state machine as the loop detector sees it: node identities,
edge list (listing order models the graph collaborator's edge order), and
the designated start state. -/
structure Graph where
  nodes : List Nat
  edges : List Edge
  start_state : Nat
deriving DecidableEq, Repr

/-- Incoming edges of a node, in graph listing order. -/
def inEdges (g : Graph) (n : Nat) : List Edge :=
  g.edges.filter (fun e => e.dst = n)

/-- Outgoing edges of a node, in graph listing order. -/
def outEdges (g : Graph) (n : Nat) : List Edge :=
  g.edges.filter (fun e => e.src = n)

/-- Edges from u to v, in graph listing order. -/
def edgesBetween (g : Graph) (u v : Nat) : List Edge :=
  g.edges.filter (fun e => e.src = u ∧ e.dst = v)

/-- Successor node identities. -/
def succs (g : Graph) (n : Nat) : List Nat :=
  (outEdges g n).map (fun e => e.dst)

/-- Predecessor node identities. -/
def preds (g : Graph) (n : Nat) : List Nat :=
  (inEdges g n).map (fun e => e.src)

/-- Worklist step for reachability from the start state (fuel-bounded). -/
def reachAux (g : Graph) : Nat → List Nat → List Nat → List Nat
  | 0, _, vis => vis
  | _ + 1, [], vis => vis
  | fuel + 1, n :: work, vis =>
    if vis.contains n then reachAux g fuel work vis
    else reachAux g fuel (work ++ succs g n) (vis ++ [n])

/-- Nodes reachable from the start state. -/
def reachable (g : Graph) : List Nat :=
  reachAux g (g.edges.length + 2) [g.start_state] []

/-- Intersection of node lists. -/
def interList (a b : List Nat) : List Nat :=
  a.filter (fun x => b.contains x)

/-- One Jacobi round of the dominator-set dataflow equations
Dom(n) = n together with the intersection of Dom over n's reachable
predecessors, with the start state pinned to itself. -/
def domStep (g : Graph) (r : List Nat) (dm : List (Nat × List Nat)) :
    List (Nat × List Nat) :=
  r.map (fun n =>
    if n = g.start_state then (n, [n])
    else
      let ps := (preds g n).filter (fun p => r.contains p)
      (n, n :: ps.foldl (fun acc p => interList acc ((dm.lookup p).getD r)) r))

/-- Iterate the dominator rounds to the fixed point. -/
def iterDom (g : Graph) (r : List Nat) : Nat → List (Nat × List Nat) → List (Nat × List Nat)
  | 0, dm => dm
  | k + 1, dm => iterDom g r k (domStep g r dm)

/-- Dominator sets of every node reachable from the start state: the
greatest fixed point of the dataflow equations, reached within
(number of reachable nodes) squared rounds from the top element. -/
def domSets (g : Graph) : List (Nat × List Nat) :=
  let r := reachable g
  iterDom g r (r.length * r.length + 1)
    (r.map (fun n => (n, if n = g.start_state then [n] else r)))

/-- Immediate dominator of a node, as nx.dominance.immediate_dominators
with the start state as root: the start state maps to itself; for any
other reachable node, the strict dominator every other strict dominator
dominates. A node the dominator map does not carry (unreachable from the
start state; the Python dict raises there, and no validated candidate
queries it) is modelled as its own fixed point. -/
def idomOf (g : Graph) (n : Nat) : Nat :=
  if n = g.start_state then n
  else
    let dm := domSets g
    let dn := (dm.lookup n).getD [n]
    let sdoms := dn.filter (fun d => d ≠ n)
    match sdoms.find? (fun d => sdoms.all (fun d2 => ((dm.lookup d).getD [d]).contains d2)) with
    | some d => d
    | none => n

/-- The dominator-chain walk of can_be_applied, one step per fuel unit:
while dom is not its own dominator, break with acceptance when dom is the
guard, otherwise move to the immediate dominator; reaching a fixed point
(the while loop exiting normally, triggering the for-else) rejects. -/
def domWalk (idom : Nat → Nat) (guard : Nat) : Nat → Nat → Bool
  | 0, _ => false
  | fuel + 1, dom =>
    if dom = idom dom then false
    else if dom = guard then true
    else domWalk idom guard fuel (idom dom)

/-- The immediate-dominator chain upward from a node, ending at the first
fixed point (fuel-truncated). -/
def idomChain (idom : Nat → Nat) : Nat → Nat → List Nat
  | 0, _ => []
  | fuel + 1, n => if n = idom n then [n] else n :: idomChain idom fuel (idom n)

/-- Modelled from the spec: dace.sdfg.utils.dfs_conditional (repository
code outside src/). Stack step of the traversal from the loop entry: every
discovered node is visited; a node equal to the guard is recorded but not
expanded further. -/
def dfsCondAux (g : Graph) (guard : Nat) : Nat → List Nat → List Nat → List Nat
  | 0, _, vis => vis
  | _ + 1, [], vis => vis
  | fuel + 1, n :: stack, vis =>
    if vis.contains n then dfsCondAux g guard fuel stack vis
    else if n = guard then dfsCondAux g guard fuel stack (vis ++ [n])
    else dfsCondAux g guard fuel (succs g n ++ stack) (vis ++ [n])

/-- Modelled from the spec: the nodes dfs_conditional yields from sources
[entry] with expansion condition child different from guard; the source is
visited and expanded unconditionally. -/
def loopNodes (g : Graph) (guard entry : Nat) : List Nat :=
  dfsCondAux g guard (2 * g.edges.length + 2) (succs g entry) [entry]

/-- The for loop over the visited nodes in can_be_applied: record whether
any visited node has a direct edge to the guard (back-edge), and return
False the moment a node's dominator walk fails; after the loop, succeed
exactly when a back-edge was found. -/
def checkLoopNodes (g : Graph) (guard : Nat) (idom : Nat → Nat) (fuel : Nat) :
    List Nat → Bool → Bool
  | [], backedge => backedge
  | n :: rest, backedge =>
    let backedge2 := backedge || (outEdges g n).any (fun e => e.dst = guard)
    if domWalk idom guard fuel n then checkLoopNodes g guard idom fuel rest backedge2
    else false

/-- DetectLoop.can_be_applied: the candidate binds guard, loop begin and
exit states; expr_index selects which template matched and strict is the
strict-transformation flag (the source reads none of the last three). -/
def canBeApplied (g : Graph) (guard bnode sexit exprIndex : Nat) (strict : Bool) : Bool :=
  match inEdges g guard with
  | [i0, i1] =>
    match outEdges g guard with
    | [o0, o1] =>
      if i0.data.assignments.length ≠ 1 ∨ i1.data.assignments.length ≠ 1 then false
      else if (i1.data.assignments.lookup
          (i0.data.assignments.headD ("", Ex.const 0)).1).isNone then false
        else if [o0, o1].any (fun e => e.data.assignments.length > 0) then false
        else if normCond o0.data.condition ≠ spNot (normCond o1.data.condition) then false
        else
          checkLoopNodes g guard (idomOf g) (g.nodes.length + 1)
            (loopNodes g guard bnode) false
    | _ => false
  | _ => false

/-- A raised Python exception distinguished from an ordinary negative
result: indexing an empty edge or key list, or a missing dict key. -/
inductive PyErr where
  | indexError
  | keyError
deriving DecidableEq, Repr

/-- Packaging of the tail of find_for_loop: match the condition against the
templates; no match yields None, a match yields the loop descriptor. -/
def mkResult (v : String) (start stride : Ex) (c : Cond) :
    Except PyErr (Option (String × (Ex × Ex × Ex))) :=
  match computeEnd v c with
  | none => .ok none
  | some e => .ok (some (v, (start, e, stride)))

/-- find_for_loop: the iteration variable is the first assignment key of
the guard's first incoming edge; the incoming edge whose expression for it
contains the variable as a free symbol is the increment edge (stride is
that expression minus the variable, simplified), the other the
initialization edge (start is its expression unmodified); both or neither
containing it yields None; the inclusive end comes from the condition on
the guard-to-entry edge via the four templates. -/
def findForLoop (g : Graph) (guard entry : Nat) :
    Except PyErr (Option (String × (Ex × Ex × Ex))) :=
  match (edgesBetween g guard entry).head? with
  | none => .error .indexError
  | some condEdge =>
    match (inEdges g guard).head? with
    | none => .error .indexError
    | some e0 =>
      match e0.data.assignments.head? with
      | none => .error .indexError
      | some p =>
        let itervar := p.1
        let condition := normCond condEdge.data.condition
        match (inEdges g guard)[1]? with
        | none => .error .indexError
        | some e1 =>
          match e0.data.assignments.lookup itervar, e1.data.assignments.lookup itervar with
          | some a0, some a1 =>
            if itervar ∈ freeSyms a0 ∧ itervar ∉ freeSyms a1 then
              mkResult itervar a1 (simpSub a0 (.sym itervar)) condition
            else if itervar ∈ freeSyms a1 ∧ itervar ∉ freeSyms a0 then
              mkResult itervar a0 (simpSub a1 (.sym itervar)) condition
            else .ok none
          | _, _ => .error .keyError

/-- The canonical single-state loop graph: start state 0 preceding the
guard 1, loop body 2, exit 3; incoming assignments i := 0 and i := i+1,
outgoing conditions i < 10 (to the body) and not (i < 10) (to the exit),
back-edge from the body to the guard. -/
def G1 : Graph :=
  ⟨[0, 1, 2, 3],
   [⟨0, 1, ⟨[("i", .const 0)], .tru⟩⟩,
    ⟨2, 1, ⟨[("i", .add (.sym "i") (.const 1))], .tru⟩⟩,
    ⟨1, 2, ⟨[], .lt (.sym "i") (.const 10)⟩⟩,
    ⟨1, 3, ⟨[], .notc (.lt (.sym "i") (.const 10))⟩⟩],
   0⟩

/-- The canonical loop with the guard as the graph's start state: node 1
is both guard and start; node 4 (unreachable from the start) carries the
initialization edge, the body 2 carries the increment back-edge. -/
def G2 : Graph :=
  ⟨[1, 2, 3, 4],
   [⟨4, 1, ⟨[("i", .const 0)], .tru⟩⟩,
    ⟨2, 1, ⟨[("i", .add (.sym "i") (.const 1))], .tru⟩⟩,
    ⟨1, 2, ⟨[], .lt (.sym "i") (.const 10)⟩⟩,
    ⟨1, 3, ⟨[], .notc (.lt (.sym "i") (.const 10))⟩⟩],
   1⟩

/-- Base loop whose continue condition is the always-true default: no
comparison template matches it. -/
def G3tru : Graph :=
  ⟨[0, 1, 2, 3],
   [⟨0, 1, ⟨[("i", .const 0)], .tru⟩⟩,
    ⟨2, 1, ⟨[("i", .add (.sym "i") (.const 1))], .tru⟩⟩,
    ⟨1, 2, ⟨[], .tru⟩⟩,
    ⟨1, 3, ⟨[], .notc .tru⟩⟩],
   0⟩

/-- Base loop with ascending stride +1 but continue condition i > 0. -/
def G3gt : Graph :=
  ⟨[0, 1, 2, 3],
   [⟨0, 1, ⟨[("i", .const 0)], .tru⟩⟩,
    ⟨2, 1, ⟨[("i", .add (.sym "i") (.const 1))], .tru⟩⟩,
    ⟨1, 2, ⟨[], .gt (.sym "i") (.const 0)⟩⟩,
    ⟨1, 3, ⟨[], .notc (.gt (.sym "i") (.const 0))⟩⟩],
   0⟩

/-- Base loop with ascending stride +1 but continue condition i >= 0. -/
def G3ge : Graph :=
  ⟨[0, 1, 2, 3],
   [⟨0, 1, ⟨[("i", .const 0)], .tru⟩⟩,
    ⟨2, 1, ⟨[("i", .add (.sym "i") (.const 1))], .tru⟩⟩,
    ⟨1, 2, ⟨[], .ge (.sym "i") (.const 0)⟩⟩,
    ⟨1, 3, ⟨[], .notc (.ge (.sym "i") (.const 0))⟩⟩],
   0⟩

/-- Base loop with continue condition i <= 10. -/
def G3le : Graph :=
  ⟨[0, 1, 2, 3],
   [⟨0, 1, ⟨[("i", .const 0)], .tru⟩⟩,
    ⟨2, 1, ⟨[("i", .add (.sym "i") (.const 1))], .tru⟩⟩,
    ⟨1, 2, ⟨[], .le (.sym "i") (.const 10)⟩⟩,
    ⟨1, 3, ⟨[], .notc (.le (.sym "i") (.const 10))⟩⟩],
   0⟩

/-- The canonical loop except that the two outgoing conditions are i < 10
and i > 10: not structural negations of one another. -/
def G4 : Graph :=
  ⟨[0, 1, 2, 3],
   [⟨0, 1, ⟨[("i", .const 0)], .tru⟩⟩,
    ⟨2, 1, ⟨[("i", .add (.sym "i") (.const 1))], .tru⟩⟩,
    ⟨1, 2, ⟨[], .lt (.sym "i") (.const 10)⟩⟩,
    ⟨1, 3, ⟨[], .gt (.sym "i") (.const 10)⟩⟩],
   0⟩

/-- A loop graph whose two incoming guard transitions carry two-entry
assignment maps with different first keys: the initialization edge lists
i before j, the increment edge lists j before i. -/
def G5a : Graph :=
  ⟨[0, 1, 2, 3],
   [⟨0, 1, ⟨[("i", .const 0), ("j", .const 7)], .tru⟩⟩,
    ⟨2, 1, ⟨[("j", .const 5), ("i", .add (.sym "i") (.const 1))], .tru⟩⟩,
    ⟨1, 2, ⟨[], .lt (.sym "i") (.const 10)⟩⟩,
    ⟨1, 3, ⟨[], .notc (.lt (.sym "i") (.const 10))⟩⟩],
   0⟩

/-- G5a with the listing order of the guard's two incoming transitions
swapped; all other data identical. -/
def G5b : Graph :=
  ⟨[0, 1, 2, 3],
   [⟨2, 1, ⟨[("j", .const 5), ("i", .add (.sym "i") (.const 1))], .tru⟩⟩,
    ⟨0, 1, ⟨[("i", .const 0), ("j", .const 7)], .tru⟩⟩,
    ⟨1, 2, ⟨[], .lt (.sym "i") (.const 10)⟩⟩,
    ⟨1, 3, ⟨[], .notc (.lt (.sym "i") (.const 10))⟩⟩],
   0⟩

/-- The canonical loop with the listing order of the guard's two incoming
transitions swapped relative to G1 (single-assignment edges, same
variable). -/
def G1swap : Graph :=
  ⟨[0, 1, 2, 3],
   [⟨2, 1, ⟨[("i", .add (.sym "i") (.const 1))], .tru⟩⟩,
    ⟨0, 1, ⟨[("i", .const 0)], .tru⟩⟩,
    ⟨1, 2, ⟨[], .lt (.sym "i") (.const 10)⟩⟩,
    ⟨1, 3, ⟨[], .notc (.lt (.sym "i") (.const 10))⟩⟩],
   0⟩

/-- Base loop whose two incoming assignment expressions both contain the
iteration variable as a free symbol (i := i+1 and i := i+2). -/
def G6b : Graph :=
  ⟨[0, 1, 2, 3],
   [⟨0, 1, ⟨[("i", .add (.sym "i") (.const 2))], .tru⟩⟩,
    ⟨2, 1, ⟨[("i", .add (.sym "i") (.const 1))], .tru⟩⟩,
    ⟨1, 2, ⟨[], .lt (.sym "i") (.const 10)⟩⟩,
    ⟨1, 3, ⟨[], .notc (.lt (.sym "i") (.const 10))⟩⟩],
   0⟩

/-- A shape-correct candidate without any back-edge: the guard's second
incoming transition comes from node 4, unreachable from the body 2, and
the body has no outgoing edges. -/
def G7 : Graph :=
  ⟨[0, 1, 2, 3, 4],
   [⟨0, 1, ⟨[("i", .const 0)], .tru⟩⟩,
    ⟨4, 1, ⟨[("i", .add (.sym "i") (.const 1))], .tru⟩⟩,
    ⟨1, 2, ⟨[], .lt (.sym "i") (.const 10)⟩⟩,
    ⟨1, 3, ⟨[], .notc (.lt (.sym "i") (.const 10))⟩⟩],
   0⟩

/-- A guard (node 1) with a single incoming transition. -/
def G8 : Graph :=
  ⟨[0, 1, 2, 3],
   [⟨0, 1, ⟨[("i", .const 0)], .tru⟩⟩,
    ⟨1, 2, ⟨[], .lt (.sym "i") (.const 10)⟩⟩,
    ⟨1, 3, ⟨[], .notc (.lt (.sym "i") (.const 10))⟩⟩],
   0⟩

/-- The canonical loop shape but with the two incoming transitions
assigning the different variables i and j. -/
def G9 : Graph :=
  ⟨[0, 1, 2, 3],
   [⟨0, 1, ⟨[("i", .const 0)], .tru⟩⟩,
    ⟨2, 1, ⟨[("j", .add (.sym "j") (.const 1))], .tru⟩⟩,
    ⟨1, 2, ⟨[], .lt (.sym "i") (.const 10)⟩⟩,
    ⟨1, 3, ⟨[], .notc (.lt (.sym "i") (.const 10))⟩⟩],
   0⟩

/-! Helper lemmas shared by the claim theorems. -/

/-- The walk accepts a node whenever the guard lies on its dominator chain
and the guard is not its own fixed point. -/
lemma domWalk_of_chain (idom : Nat → Nat) (guard : Nat) :
    ∀ (fuel n : Nat), guard ∈ idomChain idom fuel n → idom guard ≠ guard →
      domWalk idom guard fuel n = true := by
  intro fuel
  induction fuel with
  | zero => intro n h _; simp [idomChain] at h
  | succ k ih =>
    intro n hmem hg
    simp only [idomChain] at hmem
    simp only [domWalk]
    by_cases hn : n = idom n
    · rw [if_pos hn] at hmem
      simp only [List.mem_singleton] at hmem
      subst hmem
      exact absurd hn.symm hg
    · rw [if_neg hn] at hmem
      rw [if_neg (fun h => hn h)]
      by_cases hng : n = guard
      · rw [if_pos hng]
      · rw [if_neg hng]
        rcases List.mem_cons.mp hmem with h | h
        · exact absurd h.symm hng
        · exact ih (idom n) h hg

/-- When the guard is its own immediate dominator the walk accepts no node:
the while loop always exits normally before the break can fire. -/
lemma domWalk_false_of_guard_fixed (idom : Nat → Nat) (guard : Nat)
    (hg : idom guard = guard) :
    ∀ (fuel n : Nat), domWalk idom guard fuel n = false := by
  intro fuel
  induction fuel with
  | zero => intro n; rfl
  | succ k ih =>
    intro n
    simp only [domWalk]
    by_cases hn : n = idom n
    · rw [if_pos hn]
    · rw [if_neg hn]
      by_cases hng : n = guard
      · subst hng; exact absurd hg.symm hn
      · rw [if_neg hng]; exact ih (idom n)

/-- The node loop returns false when some listed node fails the walk. -/
lemma checkLoopNodes_false_of_mem (g : Graph) (guard : Nat) (idom : Nat → Nat)
    (fuel : Nat) (m : Nat) :
    ∀ (l : List Nat) (b : Bool), m ∈ l → domWalk idom guard fuel m = false →
      checkLoopNodes g guard idom fuel l b = false := by
  intro l
  induction l with
  | nil => intro b h _; simp at h
  | cons n rest ih =>
    intro b hmem hw
    simp only [checkLoopNodes]
    rcases List.mem_cons.mp hmem with h | h
    · subst h; rw [hw]; simp
    · by_cases hn : domWalk idom guard fuel n
      · rw [if_pos hn]; exact ih _ h hw
      · rw [if_neg hn]

/-- The node loop returns false when no listed node has an edge to the
guard and the back-edge flag starts false. -/
lemma checkLoopNodes_false_of_no_backedge (g : Graph) (guard : Nat)
    (idom : Nat → Nat) (fuel : Nat) :
    ∀ (l : List Nat),
      (∀ n ∈ l, (outEdges g n).any (fun e => e.dst = guard) = false) →
      checkLoopNodes g guard idom fuel l false = false := by
  intro l
  induction l with
  | nil => intro _; rfl
  | cons n rest ih =>
    intro h
    simp only [checkLoopNodes, h n (List.mem_cons_self n rest), Bool.or_false]
    by_cases hn : domWalk idom guard fuel n
    · rw [if_pos hn]
      exact ih (fun m hm => h m (List.mem_cons_of_mem n hm))
    · rw [if_neg hn]

/-- Shape of can_be_applied once the guard's degree-2 edge lists are
known. -/
lemma cba_pair_eq (g : Graph) (guard bnode sexit ei : Nat) (st : Bool)
    (i0 i1 o0 o1 : Edge)
    (hins : inEdges g guard = [i0, i1]) (houts : outEdges g guard = [o0, o1]) :
    canBeApplied g guard bnode sexit ei st =
      (if i0.data.assignments.length ≠ 1 ∨ i1.data.assignments.length ≠ 1 then false
       else if (i1.data.assignments.lookup
           (i0.data.assignments.headD ("", Ex.const 0)).1).isNone then false
       else if [o0, o1].any (fun e => e.data.assignments.length > 0) then false
       else if normCond o0.data.condition ≠ spNot (normCond o1.data.condition) then false
       else checkLoopNodes g guard (idomOf g) (g.nodes.length + 1)
         (loopNodes g guard bnode) false) := by
  unfold canBeApplied
  rw [hins, houts]

/-- A guard with in or out degree different from two is rejected. -/
lemma cba_degree_false (g : Graph) (guard bnode sexit ei : Nat) (st : Bool)
    (h : (inEdges g guard).length ≠ 2 ∨ (outEdges g guard).length ≠ 2) :
    canBeApplied g guard bnode sexit ei st = false := by
  unfold canBeApplied
  split
  case h_2 => rfl
  case h_1 i0 i1 hins =>
    split
    case h_2 => rfl
    case h_1 o0 o1 houts =>
      rcases h with h | h
      · rw [hins] at h; simp at h
      · rw [houts] at h; simp at h

/-- The tail of find_for_loop packaged: the result is the mapped template
match. -/
lemma mkResult_eq (v : String) (s st : Ex) (c : Cond) :
    mkResult v s st c =
      .ok ((computeEnd v c).map (fun e => (v, (s, e, st)))) := by
  cases h : computeEnd v c <;> simp [mkResult, h]

/-! Claim theorems. -/

/-- C1: on the canonical single-state loop graph (guard with incoming
assignments i := 0 and i := i+1, outgoing conditions i < 10 to the body
and not (i < 10) to the exit, back-edge body to guard, and a start state
preceding the guard), can_be_applied returns True and find_for_loop
returns iteration variable i with start 0, inclusive end 9 and stride 1. -/
theorem c1_canonical_loop :
    canBeApplied G1 1 2 3 0 false = true ∧
    findForLoop G1 1 2 = .ok (some ("i", (.const 0, .const 9, .const 1))) :=
  ⟨by decide, by rfl⟩

/-- C2 counterexample: in the canonical loop G2 whose guard is the graph's
start state (hence its own immediate dominator), the guard lies on the
body node's immediate-dominator chain, yet the walk rejects the body node
and can_be_applied returns False for the whole, otherwise perfect,
candidate — refuting the claim that such a node is accepted. -/
theorem c2_guard_is_start_rejected :
    idomOf G2 1 = 1 ∧
    1 ∈ idomChain (idomOf G2) (G2.nodes.length + 1) 2 ∧
    domWalk (idomOf G2) 1 (G2.nodes.length + 1) 2 = false ∧
    canBeApplied G2 1 2 3 0 false = false :=
  ⟨by decide, by decide, by decide, by decide⟩

/-- C2 (amended): a visited node is accepted when the guard occurs on its
immediate-dominator chain and the guard is not its own immediate
dominator; when the guard is its own immediate dominator (in particular
when it is the graph's start state) the walk accepts no node at all; and
whenever any node visited by the traversal from the entry fails the walk,
can_be_applied returns False for the whole candidate. -/
theorem c2_dominator_walk :
    (∀ (idom : Nat → Nat) (guard fuel n : Nat),
        guard ∈ idomChain idom fuel n → idom guard ≠ guard →
        domWalk idom guard fuel n = true) ∧
    (∀ (idom : Nat → Nat) (guard fuel n : Nat),
        idom guard = guard → domWalk idom guard fuel n = false) ∧
    (∀ (g : Graph) (guard bnode sexit ei : Nat) (st : Bool) (m : Nat),
        m ∈ loopNodes g guard bnode →
        domWalk (idomOf g) guard (g.nodes.length + 1) m = false →
        canBeApplied g guard bnode sexit ei st = false) := by
  refine ⟨fun idom guard fuel n h hg => domWalk_of_chain idom guard fuel n h hg,
          fun idom guard fuel n hg => domWalk_false_of_guard_fixed idom guard hg fuel n,
          fun g guard bnode sexit ei st m hm hw => ?_⟩
  unfold canBeApplied
  split
  case h_2 => rfl
  case h_1 i0 i1 =>
    split
    case h_2 => rfl
    case h_1 o0 o1 =>
      split
      case isTrue => rfl
      case isFalse =>
        split
        case isTrue => rfl
        case isFalse =>
          split
          case isTrue => rfl
          case isFalse =>
            split
            case isTrue => rfl
            case isFalse =>
              exact checkLoopNodes_false_of_mem g guard (idomOf g)
                (g.nodes.length + 1) m (loopNodes g guard bnode) false hm hw

/-- C2 witness: the amended theorem applied at concrete inputs — in G1 the
guard 1 has immediate dominator 0 and lies on the chain of the body 2, so
the walk accepts; in G2 the guard is the start state and the walk rejects
the body, making validation fail. -/
theorem c2_dominator_walk_instance :
    domWalk (idomOf G1) 1 (G1.nodes.length + 1) 2 = true ∧
    domWalk (idomOf G2) 1 (G2.nodes.length + 1) 2 = false ∧
    canBeApplied G2 1 2 3 1 true = false :=
  ⟨c2_dominator_walk.1 (idomOf G1) 1 (G1.nodes.length + 1) 2 (by decide) (by decide),
   c2_dominator_walk.2.1 (idomOf G2) 1 (G2.nodes.length + 1) 2 (by decide),
   c2_dominator_walk.2.2 G2 1 2 3 1 true 2 (by decide) (by decide)⟩

/-- C3: the inclusive end results from matching the guard-to-entry
condition against the four single-wildcard templates in the fixed source
order (itervar < a gives a − 1, itervar <= a gives a, itervar > a gives
a + 1, itervar >= a gives a); with no match find_for_loop returns None;
no stride-sign cross-check exists: on the base ascending loop, i < 10
yields end 9, i <= 10 yields 10, i > 0 yields 1 and i >= 0 yields 0. -/
theorem c3_condition_templates :
    (∀ a : Ex, computeEnd "i" (.lt (.sym "i") a) = some (simpSub a (.const 1))) ∧
    (∀ a : Ex, computeEnd "i" (.le (.sym "i") a) = some a) ∧
    (∀ a : Ex, computeEnd "i" (.gt (.sym "i") a) = some (simpAdd a (.const 1))) ∧
    (∀ a : Ex, computeEnd "i" (.ge (.sym "i") a) = some a) ∧
    findForLoop G3tru 1 2 = .ok none ∧
    findForLoop G1 1 2 = .ok (some ("i", (.const 0, .const 9, .const 1))) ∧
    findForLoop G3le 1 2 = .ok (some ("i", (.const 0, .const 10, .const 1))) ∧
    findForLoop G3gt 1 2 = .ok (some ("i", (.const 0, .const 1, .const 1))) ∧
    findForLoop G3ge 1 2 = .ok (some ("i", (.const 0, .const 0, .const 1))) :=
  ⟨fun a => rfl, fun a => rfl, fun a => rfl, fun a => rfl,
   by rfl, by rfl, by rfl, by rfl, by rfl⟩

/-- C4: a candidate whose guard passes the degree and incoming-assignment
checks validates only if both outgoing transitions carry no assignments
and the first outgoing condition equals the structural negation of the
second after normalization; in particular the pair i < 10 / i > 10 is
rejected on the otherwise canonical loop G4. -/
theorem c4_outgoing_negation :
    (∀ (g : Graph) (guard bnode sexit ei : Nat) (st : Bool) (i0 i1 o0 o1 : Edge),
        inEdges g guard = [i0, i1] →
        outEdges g guard = [o0, o1] →
        canBeApplied g guard bnode sexit ei st = true →
        (o0.data.assignments = [] ∧ o1.data.assignments = []) ∧
        normCond o0.data.condition = spNot (normCond o1.data.condition)) ∧
    canBeApplied G4 1 2 3 0 false = false := by
  refine ⟨?_, by decide⟩
  intro g guard bnode sexit ei st i0 i1 o0 o1 hins houts h
  rw [cba_pair_eq g guard bnode sexit ei st i0 i1 o0 o1 hins houts] at h
  split at h
  case isTrue => exact absurd h (by simp)
  case isFalse hlen =>
    split at h
    case isTrue => exact absurd h (by simp)
    case isFalse hlook =>
      split at h
      case isTrue => exact absurd h (by simp)
      case isFalse hasg =>
        split at h
        case isTrue => exact absurd h (by simp)
        case isFalse hneg =>
          simp only [List.any_cons, List.any_nil, Bool.or_false, Bool.or_eq_true,
            decide_eq_true_eq, not_or, not_lt, Nat.le_zero] at hasg
          exact ⟨⟨List.length_eq_zero.mp hasg.1, List.length_eq_zero.mp hasg.2⟩,
            not_not.mp hneg⟩

/-- C4 witness: the general direction applied to the canonical loop G1,
whose guard validates; its outgoing transitions carry no assignments and
its exit condition is the structural negation of the continue condition. -/
theorem c4_outgoing_negation_instance :
    ((⟨1, 2, ⟨[], Cond.lt (Ex.sym "i") (Ex.const 10)⟩⟩ : Edge).data.assignments = [] ∧
     (⟨1, 3, ⟨[], Cond.notc (Cond.lt (Ex.sym "i") (Ex.const 10))⟩⟩ : Edge).data.assignments = []) ∧
    normCond (⟨1, 2, ⟨[], Cond.lt (Ex.sym "i") (Ex.const 10)⟩⟩ : Edge).data.condition =
      spNot (normCond (⟨1, 3, ⟨[], Cond.notc (Cond.lt (Ex.sym "i") (Ex.const 10))⟩⟩ : Edge).data.condition) :=
  c4_outgoing_negation.1 G1 1 2 3 0 false
    ⟨0, 1, ⟨[("i", .const 0)], .tru⟩⟩
    ⟨2, 1, ⟨[("i", .add (.sym "i") (.const 1))], .tru⟩⟩
    ⟨1, 2, ⟨[], Cond.lt (Ex.sym "i") (Ex.const 10)⟩⟩
    ⟨1, 3, ⟨[], Cond.notc (Cond.lt (Ex.sym "i") (Ex.const 10))⟩⟩
    (by decide) (by decide) (by decide)

/-- C5 counterexample: G5b lists the same edges as G5a with just the
guard's two incoming transitions swapped (the incoming edge list is
reversed, the outgoing and guard-to-entry listings agree), yet
find_for_loop succeeds on G5a with (i, 0, 9, 1) and returns None on G5b:
the first incoming edge's first assignment key decides the iteration
variable, so the listing order changes the result. -/
theorem c5_swap_changes_result :
    inEdges G5b 1 = (inEdges G5a 1).reverse ∧
    outEdges G5a 1 = outEdges G5b 1 ∧
    edgesBetween G5a 1 2 = edgesBetween G5b 1 2 ∧
    G5a.nodes = G5b.nodes ∧ G5a.start_state = G5b.start_state ∧
    findForLoop G5a 1 2 = .ok (some ("i", (.const 0, .const 9, .const 1))) ∧
    findForLoop G5b 1 2 = .ok none :=
  ⟨by decide, by decide, by decide, by decide, by decide, by rfl, by rfl⟩

/-- C5 (amended): when the guard's two incoming transitions each carry
exactly one assignment, both to the same variable, swapping their listing
order does not change the result of find_for_loop. -/
theorem c5_swap_invariance :
    ∀ (g g2 : Graph) (guard entry : Nat) (i0 i1 : Edge) (v : String) (x0 x1 : Ex),
      inEdges g guard = [i0, i1] →
      inEdges g2 guard = [i1, i0] →
      edgesBetween g guard entry = edgesBetween g2 guard entry →
      i0.data.assignments = [(v, x0)] →
      i1.data.assignments = [(v, x1)] →
      findForLoop g guard entry = findForLoop g2 guard entry := by
  intro g g2 guard entry i0 i1 v x0 x1 hins hins2 hbet hi0 hi1
  unfold findForLoop
  rw [hins, hins2, hbet]
  cases hce : (edgesBetween g2 guard entry).head? with
  | none => rfl
  | some ce =>
    simp only [List.head?_cons, List.getElem?_cons_succ, List.getElem?_cons_zero,
      hi0, hi1, List.lookup, beq_self_eq_true]
    by_cases h0 : v ∈ freeSyms x0 <;> by_cases h1 : v ∈ freeSyms x1 <;>
      simp [h0, h1]

/-- C5 witness: the amended theorem applied to the canonical loop G1 and
its incoming-order-swapped variant G1swap. -/
theorem c5_swap_invariance_instance :
    findForLoop G1 1 2 = findForLoop G1swap 1 2 :=
  c5_swap_invariance G1 G1swap 1 2
    ⟨0, 1, ⟨[("i", .const 0)], .tru⟩⟩
    ⟨2, 1, ⟨[("i", .add (.sym "i") (.const 1))], .tru⟩⟩
    "i" (.const 0) (.add (.sym "i") (.const 1))
    (by decide) (by decide) (by decide) (by decide) (by decide)

/-- C6: with the iteration variable v read off the guard's first incoming
transition, find_for_loop returns None when v occurs as a free symbol in
both incoming assignment expressions or in neither; otherwise the edge
whose expression contains v is the increment edge, the stride is that
expression minus v (simplified), and the start is the other edge's
expression unmodified. -/
theorem c6_classification :
    ∀ (g : Graph) (guard entry : Nat) (i0 i1 : Edge) (v : String) (x0 : Ex)
      (tl : List (String × Ex)) (x1 : Ex) (ce : Edge),
      inEdges g guard = [i0, i1] →
      i0.data.assignments = (v, x0) :: tl →
      i1.data.assignments.lookup v = some x1 →
      (edgesBetween g guard entry).head? = some ce →
      ((v ∈ freeSyms x0 ↔ v ∈ freeSyms x1) → findForLoop g guard entry = .ok none) ∧
      (v ∈ freeSyms x0 → v ∉ freeSyms x1 →
        findForLoop g guard entry =
          .ok ((computeEnd v (normCond ce.data.condition)).map
            (fun e => (v, (x1, e, simpSub x0 (.sym v)))))) ∧
      (v ∈ freeSyms x1 → v ∉ freeSyms x0 →
        findForLoop g guard entry =
          .ok ((computeEnd v (normCond ce.data.condition)).map
            (fun e => (v, (x0, e, simpSub x1 (.sym v)))))) := by
  intro g guard entry i0 i1 v x0 tl x1 ce hins hi0 hlook hce
  unfold findForLoop
  rw [hins, hce]
  simp only [List.head?_cons, List.getElem?_cons_succ, List.getElem?_cons_zero,
    hi0, hlook, List.lookup, beq_self_eq_true]
  refine ⟨?_, ?_, ?_⟩
  · intro hiff
    rw [if_neg (fun hc => hc.2 (hiff.mp hc.1)),
        if_neg (fun hc => hc.2 (hiff.mpr hc.1))]
  · intro h0 h1
    rw [if_pos ⟨h0, h1⟩, mkResult_eq]
  · intro h1 h0
    rw [if_neg (fun hc => h0 hc.1), if_pos ⟨h1, h0⟩, mkResult_eq]

/-- C6 witness: on the canonical loop G1 the increment edge is i := i+1
(stride simplifies to 1) and the initialization edge is i := 0. -/
theorem c6_classification_instance :
    findForLoop G1 1 2 =
      .ok ((computeEnd "i" (normCond (Cond.lt (Ex.sym "i") (Ex.const 10)))).map
        (fun e => ("i", (Ex.const 0, e,
          simpSub (Ex.add (Ex.sym "i") (Ex.const 1)) (Ex.sym "i"))))) :=
  (c6_classification G1 1 2
    ⟨0, 1, ⟨[("i", .const 0)], .tru⟩⟩
    ⟨2, 1, ⟨[("i", .add (.sym "i") (.const 1))], .tru⟩⟩
    "i" (.const 0) [] (.add (.sym "i") (.const 1))
    ⟨1, 2, ⟨[], .lt (.sym "i") (.const 10)⟩⟩
    (by decide) (by decide) (by decide) (by decide)).2.2 (by decide) (by decide)

/-- C7: if no node visited by the traversal from the entry has a direct
outgoing transition to the guard, can_be_applied returns False. -/
theorem c7_backedge_required :
    ∀ (g : Graph) (guard bnode sexit ei : Nat) (st : Bool),
      (∀ n ∈ loopNodes g guard bnode,
        (outEdges g n).any (fun e => e.dst = guard) = false) →
      canBeApplied g guard bnode sexit ei st = false := by
  intro g guard bnode sexit ei st hne
  unfold canBeApplied
  split
  case h_2 => rfl
  case h_1 i0 i1 hins =>
    split
    case h_2 => rfl
    case h_1 o0 o1 houts =>
      split
      case isTrue => rfl
      case isFalse =>
        split
        case isTrue => rfl
        case isFalse =>
          split
          case isTrue => rfl
          case isFalse =>
            split
            case isTrue => rfl
            case isFalse =>
              exact checkLoopNodes_false_of_no_backedge g guard (idomOf g)
                (g.nodes.length + 1) (loopNodes g guard bnode) hne

/-- C7 witness: in G7 the only visited node is the body 2, which has no
outgoing edges at all, and validation fails. -/
theorem c7_backedge_required_instance :
    canBeApplied G7 1 2 3 0 false = false :=
  c7_backedge_required G7 1 2 3 0 false (by decide)

/-- C8: a guard whose number of incoming or outgoing transitions differs
from exactly two never validates. -/
theorem c8_degree_check :
    ∀ (g : Graph) (guard bnode sexit ei : Nat) (st : Bool),
      (inEdges g guard).length ≠ 2 ∨ (outEdges g guard).length ≠ 2 →
      canBeApplied g guard bnode sexit ei st = false := by
  intro g guard bnode sexit ei st h
  unfold canBeApplied
  split
  case h_2 => rfl
  case h_1 i0 i1 hins =>
    split
    case h_2 => rfl
    case h_1 o0 o1 houts =>
      rcases h with h | h
      · rw [hins] at h; simp at h
      · rw [houts] at h; simp at h

/-- C8 witness: the guard of G8 has a single incoming transition and is
rejected. -/
theorem c8_degree_check_instance :
    canBeApplied G8 1 2 3 0 false = false :=
  c8_degree_check G8 1 2 3 0 false (by decide)

/-- C9: with two incoming transitions, validation fails whenever they do
not each carry exactly one assignment, or they carry single assignments to
two different variable names. -/
theorem c9_same_variable :
    ∀ (g : Graph) (guard bnode sexit ei : Nat) (st : Bool) (i0 i1 : Edge),
      inEdges g guard = [i0, i1] →
      ((i0.data.assignments.length ≠ 1 ∨ i1.data.assignments.length ≠ 1) ∨
       ∃ v x w y, i0.data.assignments = [(v, x)] ∧ i1.data.assignments = [(w, y)] ∧ v ≠ w) →
      canBeApplied g guard bnode sexit ei st = false := by
  intro g guard bnode sexit ei st i0 i1 hins hbad
  rcases houts : outEdges g guard with _ | ⟨o0, _ | ⟨o1, _ | ⟨o2, rest⟩⟩⟩
  · exact cba_degree_false g guard bnode sexit ei st
      (Or.inr (by rw [houts]; simp only [List.length_nil]; omega))
  · exact cba_degree_false g guard bnode sexit ei st
      (Or.inr (by rw [houts]; simp only [List.length_cons, List.length_nil]; omega))
  · rw [cba_pair_eq g guard bnode sexit ei st i0 i1 o0 o1 hins houts]
    rcases hbad with hlen | ⟨v, x, w, y, hi0, hi1, hvw⟩
    · rw [if_pos hlen]
    · have hb : (v == w) = false := beq_eq_false_iff_ne.mpr hvw
      rw [if_neg (by simp [hi0, hi1])]
      rw [if_pos (by simp [hi0, hi1, List.lookup, hb])]
  · exact cba_degree_false g guard bnode sexit ei st
      (Or.inr (by rw [houts]; simp only [List.length_cons, List.length_nil]; omega))

/-- C9 witness: in G9 the two incoming transitions assign i and j
respectively, and validation fails. -/
theorem c9_same_variable_instance :
    canBeApplied G9 1 2 3 0 false = false :=
  c9_same_variable G9 1 2 3 0 false
    ⟨0, 1, ⟨[("i", .const 0)], .tru⟩⟩
    ⟨2, 1, ⟨[("j", .add (.sym "j") (.const 1))], .tru⟩⟩
    (by decide)
    (Or.inr ⟨"i", .const 0, "j", .add (.sym "j") (.const 1), by decide, by decide, by decide⟩)

/-- C10: can_be_applied never inspects the exit-state binding, the
expression index or the strict flag: two calls differing only in these
three inputs return equal results. -/
theorem c10_unused_inputs :
    ∀ (g : Graph) (guard bnode sexit sexit2 ei ei2 : Nat) (st st2 : Bool),
      canBeApplied g guard bnode sexit ei st = canBeApplied g guard bnode sexit2 ei2 st2 :=
  fun _ _ _ _ _ _ _ _ _ => rfl

end LoopDetect

